import Mathlib

/-!
Verification development for the minimax voice-clone terminal tool.

The Go sources are shallowly embedded as pure Lean functions.  Filesystem,
network and clock effects are passed in explicitly as oracle functions or
values, so every definition is executable.  Machine integers are modelled
as Nat with explicit reduction modulo 2^32 / 2^64 where the Go code relies
on fixed-width arithmetic (the MD5 implementation).
-/

namespace VoiceClone

/-! ### internal/config (part_003): credential configuration -/

/-- Embeds config.Config: two credential string fields. -/
structure Config where
  MinimaxSecret : String
  MinimaxGroup : String
deriving Repr, DecidableEq

/-- Embeds Config.IsComplete: both fields nonempty. -/
def Config.IsComplete (c : Config) : Bool :=
  c.MinimaxSecret ≠ "" && c.MinimaxGroup ≠ ""

/-- Go unicode whitespace as recognised by bytes.TrimSpace on the code points
the tool can meet in a small config file. -/
def goIsSpace (c : Char) : Bool :=
  c = ' ' || c = '\t' || c = '\n' || c = '\x0b' || c = '\x0c' || c = '\r' ||
  c = '\x85' || c = '\xa0'

/-- Embeds bytes.TrimSpace: drop whitespace from both ends. -/
def trimSpace (s : String) : String :=
  String.mk (((s.data.dropWhile goIsSpace).reverse.dropWhile goIsSpace).reverse)

/-- Outcome of os.ReadFile as seen by config.Load. -/
inductive ReadFileResult
  | notExist
  | failed (e : String)
  | content (data : String)
deriving Repr, DecidableEq

/-- Embeds config.Load.  The TOML decoder is an external library, passed in
as the oracle parseTOML; the claims only exercise the branches before it. -/
def Config.Load (parseTOML : String → Except String Config)
    (r : ReadFileResult) : Except String Config :=
  match r with
  | ReadFileResult.notExist => Except.ok { MinimaxSecret := "", MinimaxGroup := "" }
  | ReadFileResult.failed e => Except.error ("read config: " ++ e)
  | ReadFileResult.content data =>
    if (trimSpace data).length = 0 then
      Except.ok { MinimaxSecret := "", MinimaxGroup := "" }
    else
      match parseTOML data with
      | Except.error e => Except.error ("parse config: " ++ e)
      | Except.ok cfg => Except.ok cfg

/-! ### internal/minimax (part_002): MD5 and GenerateVoiceID

MD5 is embedded in full so that the derived voice identifier is a genuine
function of the file bytes.  Bytes are Nats below 256, words are Nats
reduced modulo 2^32.
-/

/-- The 64 MD5 round constants, floor(2^32 * abs(sin(i+1))). -/
def md5K : List Nat :=
  [3614090360, 3905402710, 606105819, 3250441966, 4118548399, 1200080426, 2821735955, 4249261313,
   1770035416, 2336552879, 4294925233, 2304563134, 1804603682, 4254626195, 2792965006, 1236535329,
   4129170786, 3225465664, 643717713, 3921069994, 3593408605, 38016083, 3634488961, 3889429448,
   568446438, 3275163606, 4107603335, 1163531501, 2850285829, 4243563512, 1735328473, 2368359562,
   4294588738, 2272392833, 1839030562, 4259657740, 2763975236, 1272893353, 4139469664, 3200236656,
   681279174, 3936430074, 3572445317, 76029189, 3654602809, 3873151461, 530742520, 3299628645,
   4096336452, 1126891415, 2878612391, 4237533241, 1700485571, 2399980690, 4293915773, 2240044497,
   1873313359, 4264355552, 2734768916, 1309151649, 4149444226, 3174756917, 718787259, 3951481745]

/-- The 64 MD5 per-round left-rotation amounts. -/
def md5S : List Nat :=
  [7, 12, 17, 22, 7, 12, 17, 22, 7, 12, 17, 22, 7, 12, 17, 22,
   5, 9, 14, 20, 5, 9, 14, 20, 5, 9, 14, 20, 5, 9, 14, 20,
   4, 11, 16, 23, 4, 11, 16, 23, 4, 11, 16, 23, 4, 11, 16, 23,
   6, 10, 15, 21, 6, 10, 15, 21, 6, 10, 15, 21, 6, 10, 15, 21]

/-- 32-bit left rotation on a word already below 2^32. -/
def rotl32 (x s : Nat) : Nat :=
  ((x <<< s) ||| (x >>> (32 - s))) % 4294967296

/-- 32-bit complement of a word below 2^32. -/
def not32 (x : Nat) : Nat := 4294967295 - (x % 4294967296)

/-- MD5 round mixing function and message-word index for round i. -/
def md5F (i b c d : Nat) : Nat × Nat :=
  if i < 16 then ((b &&& c) ||| (not32 b &&& d), i % 16)
  else if i < 32 then ((d &&& b) ||| (not32 d &&& c), (5 * i + 1) % 16)
  else if i < 48 then (b ^^^ c ^^^ d, (3 * i + 5) % 16)
  else (c ^^^ (b ||| not32 d), (7 * i) % 16)

/-- One MD5 round applied to the running (a, b, c, d) state. -/
def md5Step (M : List Nat) (st : Nat × Nat × Nat × Nat) (i : Nat) :
    Nat × Nat × Nat × Nat :=
  let a := st.1
  let b := st.2.1
  let c := st.2.2.1
  let d := st.2.2.2
  let fg := md5F i b c d
  let f2 := (fg.1 + a + md5K.getD i 0 + M.getD fg.2 0) % 4294967296
  (d, (b + rotl32 f2 (md5S.getD i 0)) % 4294967296, b, c)

/-- Assemble a little-endian 32-bit word from four bytes. -/
def leWord (bs : List Nat) : Nat :=
  bs.getD 0 0 + bs.getD 1 0 * 256 + bs.getD 2 0 * 65536 + bs.getD 3 0 * 16777216

/-- Process one padded 64-byte block. -/
def md5Block (st : Nat × Nat × Nat × Nat) (chunk : List Nat) :
    Nat × Nat × Nat × Nat :=
  let M := (List.range 16).map (fun j => leWord ((chunk.drop (4 * j)).take 4))
  let r := (List.range 64).foldl (md5Step M) st
  ((st.1 + r.1) % 4294967296, (st.2.1 + r.2.1) % 4294967296,
   (st.2.2.1 + r.2.2.1) % 4294967296, (st.2.2.2 + r.2.2.2) % 4294967296)

/-- n as count little-endian bytes. -/
def leBytes (n : Nat) : Nat → List Nat
  | 0 => []
  | k + 1 => (n % 256) :: leBytes (n / 256) k

/-- MD5 padding: 0x80, zeros to 56 mod 64, then the bit length as 8
little-endian bytes. -/
def md5Pad (msg : List Nat) : List Nat :=
  let zeros := (119 - msg.length % 64) % 64
  msg ++ [128] ++ List.replicate zeros 0 ++ leBytes ((msg.length * 8) % 18446744073709551616) 8

/-- Split a padded message into 64-byte chunks (count is length / 64). -/
def splitChunks : Nat → List Nat → List (List Nat)
  | 0, _ => []
  | k + 1, l => l.take 64 :: splitChunks k (l.drop 64)

/-- Full MD5 digest state of a byte list. -/
def md5Digest (msg : List Nat) : Nat × Nat × Nat × Nat :=
  let p := md5Pad msg
  (splitChunks (p.length / 64) p).foldl md5Block
    (1732584193, 4023233417, 2562383102, 271733878)

/-- Lower-case hex digit. -/
def hexDigit (n : Nat) : Char :=
  if n < 10 then Char.ofNat (48 + n) else Char.ofNat (87 + n)

/-- Two lower-case hex digits of a byte. -/
def byteHex (b : Nat) : List Char := [hexDigit (b / 16), hexDigit (b % 16)]

/-- Embeds hex.EncodeToString(md5.Sum(content)): 32 lower-case hex chars. -/
def md5hex (msg : List Nat) : String :=
  let st := md5Digest msg
  String.mk (((leBytes st.1 4 ++ leBytes st.2.1 4 ++ leBytes st.2.2.1 4 ++
    leBytes st.2.2.2 4).map byteHex).flatten)

/-- Embeds the Go byte-slice suffix full[len(full)-n:] on an ASCII string. -/
def lastChars (n : Nat) (s : String) : String :=
  String.mk (s.data.drop (s.data.length - n))

/-- The pure content-to-identifier core of GenerateVoiceID. -/
def voiceIDOfContent (content : List Nat) : String :=
  "minimax-voice-" ++ lastChars 6 (md5hex content)

/-- Embeds minimax.GenerateVoiceID.  Path resolution, open and read are the
single oracle fs from paths to file bytes; on success the identifier is the
fixed prefix plus the last 6 hex chars of the MD5 of the content. -/
def GenerateVoiceID (fs : String → Except String (List Nat)) (path : String) :
    Except String String :=
  match fs path with
  | Except.error e => Except.error ("open file for hash: " ++ e)
  | Except.ok content => Except.ok (voiceIDOfContent content)

/-! ### internal/exporter (part_001): result records and CSV export

Timestamps are modelled as Nat seconds; the Go zero time.Time (never set)
is Option.none.  The stdlib renderings time.Format(...) are modelled by
simple executable functions; the claims rely only on a set timestamp
rendering to a nonempty string.
-/

/-- Decimal rendering left-padded to two digits, as in Go clock formats. -/
def pad2 (n : Nat) : String :=
  if n < 10 then "0" ++ toString n else toString n

/-- Models time.Format of the layout 15:04:05 on a seconds timestamp. -/
def formatClock (t : Nat) : String :=
  pad2 (t / 3600 % 24) ++ ":" ++ pad2 (t / 60 % 60) ++ ":" ++ pad2 (t % 60)

/-- Models time.Format(time.RFC3339) on a seconds timestamp; always
nonempty (the development relies only on that). -/
def formatRFC3339 (t : Nat) : String := toString t ++ "Z"

/-- Models time.Format of the layout 20060102_150405 used in the export
filename. -/
def formatStamp (t : Nat) : String := toString t

/-- Embeds exporter.Record; UpdatedAt none is the zero time.Time. -/
structure Record where
  FilePath : String
  MinimaxFileID : String
  MinimaxVoiceID : String
  Status : String
  ErrorReason : String
  UpdatedAt : Option Nat
deriving Repr, DecidableEq

/-- The timestamp cell written for a record: RFC3339 unless never set. -/
def timestampCell (r : Record) : String :=
  match r.UpdatedAt with
  | some t => formatRFC3339 t
  | none => ""

/-- The CSV row written for one record, in the fixed column order of
exporter.ToCSV. -/
def recordRow (r : Record) : List String :=
  [r.FilePath, r.MinimaxFileID, r.MinimaxVoiceID, r.Status, r.ErrorReason,
   timestampCell r]

/-- The mandatory header row of exporter.ToCSV. -/
def csvHeader : List String :=
  ["file_path", "minimax_file_id", "minimax_voice_id", "status", "error_reason",
   "updated_at"]

/-- Filesystem and clock effects used by exporter.ToCSV. -/
structure ExportEnv where
  mkdirAll : String → Except String Unit
  createFile : String → Except String Unit
  now : Nat

/-- Models filepath.Join for the one join the exporter performs. -/
def joinPath (dir name : String) : String := dir ++ "/" ++ name

/-- Embeds exporter.ToCSV.  First component: the returned path and the rows
written (header first), or the error.  Second component: the files whose
creation was attempted, so that creating no file is observable.  The csv
writer itself is buffered in memory and modelled as infallible. -/
def ToCSV (env : ExportEnv) (records : List Record) (downloadsDir : String) :
    Except String (String × List (List String)) × List String :=
  if downloadsDir = "" then
    (Except.error "downloads directory not provided", [])
  else
    match env.mkdirAll downloadsDir with
    | Except.error e => (Except.error ("ensure downloads directory: " ++ e), [])
    | Except.ok _ =>
      if records.length = 0 then
        (Except.error "没有可导出的记录", [])
      else
        let filename := "minimax_voice_export_" ++ formatStamp env.now ++ ".csv"
        let fullPath := joinPath downloadsDir filename
        match env.createFile fullPath with
        | Except.error e =>
          (Except.error ("create export file: " ++ e), [fullPath])
        | Except.ok _ =>
          (Except.ok (fullPath, csvHeader :: records.map recordRow), [fullPath])

/-! ### internal/app (part_004): directory lister -/

/-- One entry as returned by os.ReadDir: a name and the directory flag. -/
structure DirEntry where
  name : String
  isDir : Bool
deriving Repr, DecidableEq

/-- Embeds app.fileItem. -/
structure FileItem where
  name : String
  path : String
  isDir : Bool
  isParent : Bool
deriving Repr, DecidableEq

/-- Models strings.ToLower character by character (ASCII case folding). -/
def lowerName (s : String) : String := String.mk (s.data.map Char.toLower)

/-- Embeds the comparator closure passed to sort.Slice in listDirectory:
directories first, then case-insensitive name comparison. -/
def entryLess (a b : DirEntry) : Bool :=
  if a.isDir && !b.isDir then true
  else if !a.isDir && b.isDir then false
  else decide ((lowerName a.name).data < (lowerName b.name).data)

/-- The complement of the comparator: the non-strict order the sorted
slice satisfies (sort.Slice guarantees no later element is strictly less
than an earlier one). -/
def entryLe (a b : DirEntry) : Prop := (!entryLess b a) = true

instance entryLeDecidable : DecidableRel entryLe :=
  fun a b => inferInstanceAs (Decidable ((!entryLess b a) = true))

/-- Embeds app.listDirectory on an already-read directory.  filepath.Dir and
filepath.Join are passed in as dirOf and join; the unstable sort.Slice is
modelled by insertion sort over the same comparator (any permutation that
is pairwise ordered for the comparator is a faithful model). -/
def listDirectory (dirOf : String → String) (join : String → String → String)
    (path : String) (entries : List DirEntry) : List FileItem :=
  let parentItems :=
    if dirOf path ≠ path then
      [{ name := "..", path := dirOf path, isDir := true, isParent := true }]
    else []
  let sorted := entries.insertionSort entryLe
  parentItems ++ sorted.map (fun e =>
    { name := e.name, path := join path e.name, isDir := e.isDir,
      isParent := false })

/-! ### internal/app (part_004): model, selection and key handling -/

/-- Embeds app.appState. -/
inductive AppState
  | config
  | browser
  | confirm
  | cloning
  | summary
  | exporting
deriving Repr, DecidableEq

/-- Scan helper for goExt: walk the reversed path until a dot or a
separator. -/
def extScan : List Char → List Char → Option (List Char)
  | [], _ => none
  | c :: rest, acc =>
    if c = '/' then none
    else if c = '.' then some (c :: acc)
    else extScan rest (c :: acc)

/-- Embeds filepath.Ext as used by toggleSelection: the suffix from the
final dot of the final path element, empty when there is none. -/
def goExt (path : String) : String :=
  match extScan path.data.reverse [] with
  | some cs => String.mk cs
  | none => ""

/-- Embeds filepath.Base as used in the per-job log line. -/
def goFilepathBase (path : String) : String :=
  if path = "" then "."
  else
    let rev := path.data.reverse.dropWhile (fun c => c = '/')
    if rev = [] then "/"
    else String.mk (rev.takeWhile (fun c => decide (c ≠ '/'))).reverse

/-- The commands a dispatch step can issue (tea.Cmd); the spinner tick of a
tea.Batch is dropped as pure rendering. -/
inductive Cmd
  | noop
  | quit
  | loadDirectory (path : String)
  | runJob (path : String)
  | emitFinished (succ failed : Nat)
  | exportRecords (records : List Record)
deriving Repr, DecidableEq

/-- Embeds the dispatch-relevant fields of app.model.  The selected map is
carried as its key list (set semantics via the no-duplicates invariant);
the bubbles list widget is carried as its items plus cursor index; purely
visual fields (geometry, spinner, text inputs, viewport scroll) are not part
of any claim and are omitted. -/
structure Model where
  state : AppState
  cfg : Config
  rootPath : String
  homePath : String
  downloadsDir : String
  listItems : List FileItem
  listIndex : Nat
  selected : List String
  selectedOrder : List String
  statusMsg : String
  errorMsg : String
  currentDir : String
  confirmLines : List String
  logs : List String
  cloneQueue : List String
  cloneIndex : Nat
  cloneSuccess : Nat
  cloneFailed : Nat
  pendingReload : Bool
  results : List Record
  lastExportPath : String
deriving Repr, DecidableEq

/-- Embeds app.newModel: the initial state is Browser when the stored
credentials are complete and Config otherwise. -/
def newModel (cfg : Config) (rootPath homePath downloadsDir : String) : Model :=
  { state := if cfg.IsComplete then AppState.browser else AppState.config,
    cfg := cfg, rootPath := rootPath, homePath := homePath,
    downloadsDir := downloadsDir,
    listItems := [], listIndex := 0, selected := [], selectedOrder := [],
    statusMsg := "按 C 克隆 · Shift+C 编辑凭证 · 空格/X 勾选文件 · Enter 进入目录 · E 导出 · Q 退出",
    errorMsg := "", currentDir := "", confirmLines := [], logs := [],
    cloneQueue := [], cloneIndex := 0, cloneSuccess := 0, cloneFailed := 0,
    pendingReload := false, results := [], lastExportPath := "" }

/-- Embeds model.currentDirOrRoot. -/
def currentDirOrRoot (m : Model) : String :=
  if m.currentDir = "" then m.rootPath else m.currentDir

/-- Embeds model.toggleSelection: no-op on directories, message on a
disallowed extension, otherwise membership and order flip together. -/
def toggleSelection (m : Model) (item : FileItem) : Model :=
  if item.isDir then m
  else
    let ext := lowerName (goExt item.path)
    if ext = ".mp3" ∨ ext = ".m4a" ∨ ext = ".wav" then
      if m.selected.contains item.path then
        { m with selected := m.selected.erase item.path,
                 selectedOrder := m.selectedOrder.erase item.path }
      else
        { m with selected := m.selected ++ [item.path],
                 selectedOrder := m.selectedOrder ++ [item.path] }
    else
      { m with errorMsg := "仅支持选择 mp3、m4a、wav 文件" }

/-- toggleSelection applied to the plain file item for path p. -/
def togglePath (p : String) (m : Model) : Model :=
  toggleSelection m { name := p, path := p, isDir := false, isParent := false }

/-- Embeds model.selectedFiles: the insertion order filtered by current
membership. -/
def selectedFiles (m : Model) : List String :=
  m.selectedOrder.filter (fun path => m.selected.contains path)

/-- Embeds model.prepareConfirmLines: the selected files sorted by
sort.Strings (modelled by insertion sort over the string order). -/
def prepareConfirmLines (m : Model) : Model :=
  { m with confirmLines := (selectedFiles m).insertionSort (· ≤ ·) }

/-- Embeds model.updateConfig for the dispatch keys; editing keystrokes
only mutate the text inputs, which are visual state outside the claims,
so they leave this model unchanged. -/
def updateConfig (m : Model) (key : String) : Model × Cmd :=
  if key = "ctrl+c" then (m, Cmd.quit)
  else if key = "esc" then
    if ¬m.cfg.IsComplete then (m, Cmd.quit)
    else ({ m with state := AppState.browser }, Cmd.loadDirectory (currentDirOrRoot m))
  else (m, Cmd.noop)

/-- The list item under the cursor (bubbles list.SelectedItem). -/
def selectedItem (m : Model) : Option FileItem :=
  m.listItems.get? m.listIndex

/-- Embeds model.changeDirectory; stat is os.Stat reduced to its IsDir
outcome (none: stat error). -/
def changeDirectory (stat : String → Option Bool) (m : Model) (path : String) :
    Model × Cmd :=
  match stat path with
  | some true => (m, Cmd.loadDirectory path)
  | _ => ({ m with errorMsg := "无法进入目录" }, Cmd.noop)

/-- Embeds model.goParentDirectory. -/
def goParentDirectory (dirOf : String → String) (stat : String → Option Bool)
    (m : Model) : Model × Cmd :=
  if dirOf (currentDirOrRoot m) = currentDirOrRoot m then (m, Cmd.noop)
  else changeDirectory stat m (dirOf (currentDirOrRoot m))

/-- Embeds model.updateBrowserKeys.  Keys that only move the list cursor
fall through to the widget and leave all dispatch-relevant state unchanged. -/
def updateBrowserKeys (dirOf : String → String) (stat : String → Option Bool)
    (m : Model) (key : String) : Model × Cmd :=
  if key = "ctrl+c" ∨ key = "q" then (m, Cmd.quit)
  else if key = "c" then
    if m.selected.length = 0 then
      ({ m with errorMsg := "请先勾选至少一个文件" }, Cmd.noop)
    else
      (prepareConfirmLines { m with state := AppState.confirm }, Cmd.noop)
  else if key = "C" then ({ m with state := AppState.config }, Cmd.noop)
  else if key = "e" then
    if m.results.length = 0 then
      ({ m with errorMsg := "暂无可导出的克隆记录" }, Cmd.noop)
    else
      ({ m with state := AppState.exporting, statusMsg := "正在导出 CSV..." },
       Cmd.exportRecords m.results)
  else if key = " " ∨ key = "x" then
    match selectedItem m with
    | some item => if !item.isDir then (toggleSelection m item, Cmd.noop) else (m, Cmd.noop)
    | none => (m, Cmd.noop)
  else if key = "left" ∨ key = "h" ∨ key = "backspace" then
    goParentDirectory dirOf stat m
  else if key = "right" ∨ key = "l" ∨ key = "enter" then
    match selectedItem m with
    | some item => if item.isDir then changeDirectory stat m item.path else (m, Cmd.noop)
    | none => (m, Cmd.noop)
  else (m, Cmd.noop)

/-! ### internal/app (part_004): the clone pipeline -/

/-- The remote-service and file effects of one job, as oracles: file bytes
for hashing, the upload RPC (server file id) and the clone RPC (status
message). -/
structure RemoteEnv where
  readFile : String → Except String (List Nat)
  upload : String → Except String Int
  clone : Int → String → Except String String

/-- Embeds app.cloneStepMsg. -/
structure CloneStepMsg where
  Path : String
  VoiceID : String
  Message : String
  Err : Option String
  Timestamp : Nat
  Logs : List String
  Record : Option Record
deriving Repr, DecidableEq

/-- Embeds app.cloneFinishedMsg. -/
structure CloneFinishedMsg where
  Success : Nat
  Failed : Nat
deriving Repr, DecidableEq

/-- Embeds app.exportResultMsg. -/
structure ExportResultMsg where
  Path : String
  Err : Option String
deriving Repr, DecidableEq

/-- A remote call made by a job, recording the arguments actually passed. -/
inductive RemoteCall
  | upload (path : String)
  | clone (fileID : Int) (voiceID : String)
deriving Repr, DecidableEq

/-- Models strconv.FormatInt base 10. -/
def formatInt (n : Int) : String := toString n

/-- Embeds app.cloneFileCmd: hash, upload, clone; every branch carries one
Record.  The successive time.Now() calls of one job are modelled as the
single instant now.  The second component lists the remote calls made with
their actual arguments. -/
def cloneFileCmd (env : RemoteEnv) (path : String) (now : Nat) :
    CloneStepMsg × List RemoteCall :=
  let logs0 := ["开始处理文件：" ++ goFilepathBase path, "  → 正在上传文件..."]
  match GenerateVoiceID env.readFile path with
  | Except.error e =>
    ({ Path := path, VoiceID := "", Message := "", Err := some e,
       Timestamp := now,
       Logs := logs0 ++ ["  ❌ 生成 Voice ID 失败：" ++ e],
       Record := some { FilePath := path, MinimaxFileID := "",
                        MinimaxVoiceID := "", Status := "failed",
                        ErrorReason := e, UpdatedAt := some now } }, [])
  | Except.ok voiceID =>
    let logs1 := logs0 ++ ["  → 生成 Voice ID：" ++ voiceID]
    match env.upload path with
    | Except.error e =>
      ({ Path := path, VoiceID := "", Message := "", Err := some e,
         Timestamp := now,
         Logs := logs1 ++ ["  ❌ 上传失败：" ++ e],
         Record := some { FilePath := path, MinimaxFileID := "",
                          MinimaxVoiceID := "", Status := "failed",
                          ErrorReason := e, UpdatedAt := some now } },
       [RemoteCall.upload path])
    | Except.ok fileID =>
      let fileIDStr := formatInt fileID
      let logs2 := logs1 ++ ["  ✅ 上传成功，文件ID：" ++ fileIDStr,
        "  → 正在克隆音色（Voice ID：" ++ voiceID ++ "）..."]
      match env.clone fileID voiceID with
      | Except.error e =>
        ({ Path := path, VoiceID := "", Message := "", Err := some e,
           Timestamp := now,
           Logs := logs2 ++ ["  ❌ 克隆失败：" ++ e],
           Record := some { FilePath := path, MinimaxFileID := fileIDStr,
                            MinimaxVoiceID := voiceID, Status := "failed",
                            ErrorReason := e, UpdatedAt := some now } },
         [RemoteCall.upload path, RemoteCall.clone fileID voiceID])
      | Except.ok statusMsg =>
        ({ Path := path, VoiceID := voiceID, Message := statusMsg,
           Err := none, Timestamp := now,
           Logs := logs2 ++ ["  ✅ 克隆成功，Voice ID：" ++ voiceID,
             "     MiniMax 状态：" ++ statusMsg],
           Record := some { FilePath := path, MinimaxFileID := fileIDStr,
                            MinimaxVoiceID := voiceID, Status := "success",
                            ErrorReason := "", UpdatedAt := some now } },
         [RemoteCall.upload path, RemoteCall.clone fileID voiceID])

/-- The tagged log lines a step message contributes. -/
def stepLogLines (msg : CloneStepMsg) : List String :=
  msg.Logs.map (fun l => "[" ++ formatClock msg.Timestamp ++ "] " ++ l)

/-- The state mutation of model.handleCloneStep: append tagged log lines,
append the record when present, increment exactly one counter. -/
def absorbCloneStep (m : Model) (msg : CloneStepMsg) : Model :=
  let m1 := { m with logs := m.logs ++ stepLogLines msg }
  let m2 :=
    match msg.Record with
    | some r => { m1 with results := m1.results ++ [r] }
    | none => m1
  if msg.Err.isSome then { m2 with cloneFailed := m2.cloneFailed + 1 }
  else { m2 with cloneSuccess := m2.cloneSuccess + 1 }

/-- Embeds model.nextCloneCmd: past the end of the queue the aggregate
completion signal is emitted with the current counters; otherwise the index
advances and the job for the frozen queue entry is issued. -/
def nextCloneCmd (m : Model) : Model × Cmd :=
  if m.cloneQueue.length ≤ m.cloneIndex then
    (m, Cmd.emitFinished m.cloneSuccess m.cloneFailed)
  else
    ({ m with cloneIndex := m.cloneIndex + 1 },
     Cmd.runJob (m.cloneQueue.getD m.cloneIndex ""))

/-- Embeds model.handleCloneStep: absorb the message, then schedule the
next command. -/
def handleCloneStep (m : Model) (msg : CloneStepMsg) : Model × Cmd :=
  nextCloneCmd (absorbCloneStep m msg)

/-- Embeds the Confirm-accept branch of model.updateConfirm: freeze the
queue from the selection and reset the run state. -/
def startClone (m : Model) : Model :=
  { m with state := AppState.cloning, cloneQueue := selectedFiles m,
           cloneIndex := 0, cloneSuccess := 0, cloneFailed := 0,
           logs := [], results := [], lastExportPath := "",
           statusMsg := "正在执行克隆任务..." }

/-- One dispatched pipeline message, for run traces. -/
inductive Dispatched
  | step (msg : CloneStepMsg)
  | finished (succ failed : Nat)
deriving Repr, DecidableEq

/-- Is a trace entry the aggregate completion signal? -/
def Dispatched.isFinished : Dispatched → Bool
  | Dispatched.finished _ _ => true
  | _ => false

/-- The step message of the job for one path. -/
def jobMsg (env : RemoteEnv) (now : Nat) (p : String) : CloneStepMsg :=
  (cloneFileCmd env p now).1

/-- Does the job for this path fail? -/
def jobFails (env : RemoteEnv) (now : Nat) (p : String) : Bool :=
  (jobMsg env now p).Err.isSome

/-- The record the job for this path appends (every branch of
cloneFileCmd carries one). -/
def jobRecord (env : RemoteEnv) (now : Nat) (p : String) : Record :=
  match (jobMsg env now p).Record with
  | some r => r
  | none => { FilePath := p, MinimaxFileID := "", MinimaxVoiceID := "",
              Status := "", ErrorReason := "", UpdatedAt := none }

/-- The single-consumer dispatch loop of a Cloning run: execute the command
nextCloneCmd issued, feed the resulting message back through
handleCloneStep, stop once the aggregate completion signal is emitted.
Fuel bounds the recursion; queue length + 1 always suffices. -/
def runClone (env : RemoteEnv) (now : Nat) : Nat → Model → Model × List Dispatched
  | 0, m => (m, [])
  | fuel + 1, m =>
    match nextCloneCmd m with
    | (m', Cmd.emitFinished s f) => (m', [Dispatched.finished s f])
    | (m', Cmd.runJob path) =>
      let r := runClone env now fuel (absorbCloneStep m' (jobMsg env now path))
      (r.1, Dispatched.step (jobMsg env now path) :: r.2)
    | (m', _) => (m', [])

/-- Embeds model.handleCloneFinished: the automatic export runs, its
outcome is reflected in the log and status line, and the state becomes
Summary either way; the selection is cleared and a reload is queued. -/
def handleCloneFinished (eenv : ExportEnv) (m : Model) (msg : CloneFinishedMsg) :
    Model :=
  let m1 :=
    match (ToCSV eenv m.results m.downloadsDir).1 with
    | Except.error e =>
      { m with logs := m.logs ++ ["[" ++ formatClock eenv.now ++ "] ❌ 自动导出失败：" ++ e],
               statusMsg := "克隆完成：成功 " ++ toString msg.Success ++ " · 失败 " ++
                 toString msg.Failed ++ " · 导出失败（按 q 返回）",
               lastExportPath := "" }
    | Except.ok res =>
      { m with logs := m.logs ++ ["[" ++ formatClock eenv.now ++ "] ✅ 结果已导出：" ++ res.1],
               statusMsg := "克隆完成：成功 " ++ toString msg.Success ++ " · 失败 " ++
                 toString msg.Failed ++ " · CSV：" ++ res.1 ++ " (按 q 返回)",
               lastExportPath := res.1 }
  { m1 with state := AppState.summary, selected := [], selectedOrder := [],
            pendingReload := true, errorMsg := "" }

/-- Embeds model.handleExportResult (manual export completion): back to
Browser, with either the error message or the success status line. -/
def handleExportResult (m : Model) (msg : ExportResultMsg) : Model × Cmd :=
  let m1 := { m with state := AppState.browser }
  match msg.Err with
  | some e => ({ m1 with errorMsg := "导出失败：" ++ e, statusMsg := "" }, Cmd.noop)
  | none =>
    ({ m1 with statusMsg := "导出成功：" ++ msg.Path, errorMsg := "",
               lastExportPath := msg.Path }, Cmd.noop)

/-! ### Shared helper definitions and lemmas for the claims -/

/-- A complete-credentials base model shared by several claims. -/
def baseModel : Model :=
  newModel { MinimaxSecret := "k", MinimaxGroup := "g" } "/root" "/home" "/dl"

/-- The model started with empty stored credentials. -/
def emptyCfgModel : Model :=
  newModel { MinimaxSecret := "", MinimaxGroup := "" } "/root" "/home" "/dl"

/-- An RFC3339 rendering of a set timestamp is never the empty cell. -/
theorem formatRFC3339_ne_empty (t : Nat) : formatRFC3339 t ≠ "" := by
  intro h
  have hlen := congrArg String.length h
  simp [formatRFC3339, String.length_append] at hlen
  exact absurd hlen.2 (by decide)

/-! ### C10 -/

/-- C10: loading the credential configuration when the file does not exist,
or when its content is empty or only whitespace, returns the empty
configuration (both fields empty) without error, and the application with
that configuration starts in the Config state. -/
theorem C10_load_blank_config
    (parseTOML : String → Except String Config) (data : String)
    (root home dls : String)
    (hblank : data.data.all goIsSpace = true) :
    Config.Load parseTOML ReadFileResult.notExist =
      Except.ok { MinimaxSecret := "", MinimaxGroup := "" } ∧
    Config.Load parseTOML (ReadFileResult.content data) =
      Except.ok { MinimaxSecret := "", MinimaxGroup := "" } ∧
    (newModel { MinimaxSecret := "", MinimaxGroup := "" } root home dls).state =
      AppState.config := by
  refine ⟨rfl, ?_, by simp [newModel, Config.IsComplete]⟩
  have hdrop : data.data.dropWhile goIsSpace = [] := by
    rw [List.dropWhile_eq_nil_iff]
    intro x hx
    exact List.all_eq_true.mp hblank x hx
  have h1 : (trimSpace data).length = 0 := by
    simp [trimSpace, hdrop]
  simp [Config.Load, h1]

/-- C10 witness: a missing file and a whitespace-only file both load as the
empty configuration even under a failing TOML decoder, and that
configuration starts the application in Config. -/
theorem C10_load_blank_config_witness :
    Config.Load (fun _ => Except.error "boom") ReadFileResult.notExist =
      Except.ok { MinimaxSecret := "", MinimaxGroup := "" } ∧
    Config.Load (fun _ => Except.error "boom") (ReadFileResult.content "  \n\t ") =
      Except.ok { MinimaxSecret := "", MinimaxGroup := "" } ∧
    (newModel { MinimaxSecret := "", MinimaxGroup := "" } "/r" "/h" "/d").state =
      AppState.config :=
  C10_load_blank_config (fun _ => Except.error "boom") "  \n\t " "/r" "/h" "/d"
    (by decide)

/-! ### C8 -/

/-- C8: the derived voice identifier is a function of the file content
only: two paths whose files hold identical bytes get identical
identifiers, whatever their names or locations. -/
theorem C8_voice_id_content_only
    (fs : String → Except String (List Nat)) (p1 p2 : String) (c : List Nat)
    (h1 : fs p1 = Except.ok c) (h2 : fs p2 = Except.ok c) :
    GenerateVoiceID fs p1 = GenerateVoiceID fs p2 := by
  simp [GenerateVoiceID, h1, h2]

/-- C8 witness: two differently named and located files with the same
single byte of content derive the same identifier. -/
theorem C8_voice_id_content_only_witness :
    GenerateVoiceID (fun _ => Except.ok [97]) "/music/a.mp3" =
      GenerateVoiceID (fun _ => Except.ok [97]) "/other/deep/b.wav" :=
  C8_voice_id_content_only (fun _ => Except.ok [97]) "/music/a.mp3"
    "/other/deep/b.wav" [97] rfl rfl

/-! ### C9 -/

/-- C9: the derived identifier is the fixed prefix plus only the last 6 hex
characters of the MD5 digest of the content; that truncated value is the
voice identifier actually passed to the remote clone call; and any two
contents whose digests agree on the final 6 hex digits get equal
identifiers. -/
theorem C9_truncated_digest_submitted
    (fs : String → Except String (List Nat)) (p : String) (c : List Nat)
    (env : RemoteEnv) (path : String) (now : Nat) (content : List Nat)
    (fid : Int) (c1 c2 : List Nat)
    (hp : fs p = Except.ok c)
    (hr : env.readFile path = Except.ok content)
    (hu : env.upload path = Except.ok fid)
    (hsuf : lastChars 6 (md5hex c1) = lastChars 6 (md5hex c2)) :
    GenerateVoiceID fs p =
      Except.ok ("minimax-voice-" ++ lastChars 6 (md5hex c)) ∧
    (cloneFileCmd env path now).2.contains
      (RemoteCall.clone fid ("minimax-voice-" ++ lastChars 6 (md5hex content))) =
      true ∧
    voiceIDOfContent c1 = voiceIDOfContent c2 := by
  refine ⟨by simp [GenerateVoiceID, hp, voiceIDOfContent], ?_,
    by simp [voiceIDOfContent, hsuf]⟩
  unfold cloneFileCmd
  simp only [GenerateVoiceID, hr, voiceIDOfContent]
  rw [hu]
  cases h3 : env.clone fid ("minimax-voice-" ++ lastChars 6 (md5hex content)) <;>
    simp [h3]

set_option maxRecDepth 200000 in
/-- C9 witness: the 4-byte contents 1104 and 1506 have different MD5
digests that agree on the final 6 hex digits; the job over the first file
submits the truncated identifier to the clone call and both contents
derive the same identifier. -/
theorem C9_truncated_digest_submitted_witness :
    md5hex [49, 49, 48, 52] ≠ md5hex [49, 53, 48, 54] ∧
    (GenerateVoiceID (fun _ => Except.ok [49, 49, 48, 52]) "/a/x.mp3" =
       Except.ok ("minimax-voice-" ++ lastChars 6 (md5hex [49, 49, 48, 52])) ∧
     (cloneFileCmd
        { readFile := fun _ => Except.ok [49, 49, 48, 52],
          upload := fun _ => Except.ok 7,
          clone := fun _ _ => Except.ok "ok" } "/a/x.mp3" 0).2.contains
        (RemoteCall.clone 7
          ("minimax-voice-" ++ lastChars 6 (md5hex [49, 49, 48, 52]))) = true ∧
     voiceIDOfContent [49, 49, 48, 52] = voiceIDOfContent [49, 53, 48, 54]) :=
  ⟨by decide,
   C9_truncated_digest_submitted (fun _ => Except.ok [49, 49, 48, 52])
     "/a/x.mp3" [49, 49, 48, 52]
     { readFile := fun _ => Except.ok [49, 49, 48, 52],
       upload := fun _ => Except.ok 7, clone := fun _ _ => Except.ok "ok" }
     "/a/x.mp3" 0 [49, 49, 48, 52] 7 [49, 49, 48, 52] [49, 53, 48, 54]
     rfl rfl rfl (by decide)⟩

/-! ### C3 -/

/-- C3: exporting M >= 1 records under a writable destination produces the
header row followed by one row per record in order (M + 1 rows), with the
fixed column order and the timestamp cell empty exactly when never set;
the error-reason cell of a successful pipeline record is empty; exporting
an empty record list fails and creates no file. -/
theorem C3_export_rows
    (eenv : ExportEnv) (records : List Record) (dir : String) (r : Record)
    (hdir : dir ≠ "")
    (hmk : eenv.mkdirAll dir = Except.ok ())
    (hcr : ∀ p, eenv.createFile p = Except.ok ())
    (hne : records ≠ []) :
    (ToCSV eenv records dir).1 =
      Except.ok
        (joinPath dir ("minimax_voice_export_" ++ formatStamp eenv.now ++ ".csv"),
         csvHeader :: records.map recordRow) ∧
    (csvHeader :: records.map recordRow).length = records.length + 1 ∧
    recordRow r =
      [r.FilePath, r.MinimaxFileID, r.MinimaxVoiceID, r.Status, r.ErrorReason,
       timestampCell r] ∧
    (timestampCell r = "" ↔ r.UpdatedAt = none) ∧
    (∀ env2 p now2, (cloneFileCmd env2 p now2).1.Err = none →
      ((cloneFileCmd env2 p now2).1.Record).map Record.ErrorReason = some "") ∧
    (∀ v, (ToCSV eenv [] dir).1 ≠ Except.ok v) ∧
    (ToCSV eenv [] dir).2 = [] := by
  have hlen : ¬ records.length = 0 := by
    intro h
    exact hne (List.length_eq_zero.mp h)
  refine ⟨by simp [ToCSV, hdir, hmk, hlen, hcr], by simp, rfl, ?_, ?_,
    by intro v; simp [ToCSV, hdir, hmk], by simp [ToCSV, hdir, hmk]⟩
  · cases h : r.UpdatedAt with
    | none => simp [timestampCell, h]
    | some t => simp [timestampCell, h, formatRFC3339_ne_empty t]
  · intro env2 p now2 herr
    cases h1 : GenerateVoiceID env2.readFile p with
    | error e => simp [cloneFileCmd, h1] at herr
    | ok vid =>
      cases h2 : env2.upload p with
      | error e => simp [cloneFileCmd, h1, h2] at herr
      | ok fid =>
        cases h3 : env2.clone fid vid with
        | error e => simp [cloneFileCmd, h1, h2, h3] at herr
        | ok s => simp [cloneFileCmd, h1, h2, h3]

/-- A concrete successful result record for witnesses. -/
def sampleRecord : Record :=
  { FilePath := "a.mp3", MinimaxFileID := "7", MinimaxVoiceID := "v",
    Status := "success", ErrorReason := "", UpdatedAt := some 5 }

/-- An export environment in which every filesystem effect succeeds. -/
def okExportEnv : ExportEnv :=
  { mkdirAll := fun _ => Except.ok (), createFile := fun _ => Except.ok (),
    now := 3 }

/-- C3 witness: one successful record exports as a header plus one row
under an always-writable destination, and the empty export fails with no
file created. -/
theorem C3_export_rows_witness :
    (ToCSV okExportEnv [sampleRecord] "/dl").1 =
      Except.ok
        (joinPath "/dl" ("minimax_voice_export_" ++ formatStamp okExportEnv.now ++ ".csv"),
         csvHeader :: [sampleRecord].map recordRow) ∧
    (csvHeader :: [sampleRecord].map recordRow).length = 1 + 1 ∧
    recordRow sampleRecord =
      [sampleRecord.FilePath, sampleRecord.MinimaxFileID,
       sampleRecord.MinimaxVoiceID, sampleRecord.Status,
       sampleRecord.ErrorReason, timestampCell sampleRecord] ∧
    (timestampCell sampleRecord = "" ↔ sampleRecord.UpdatedAt = none) ∧
    (∀ env2 p now2, (cloneFileCmd env2 p now2).1.Err = none →
      ((cloneFileCmd env2 p now2).1.Record).map Record.ErrorReason = some "") ∧
    (∀ v, (ToCSV okExportEnv [] "/dl").1 ≠ Except.ok v) ∧
    (ToCSV okExportEnv [] "/dl").2 = [] := by
  have h := C3_export_rows okExportEnv [sampleRecord] "/dl" sampleRecord
    (by decide) rfl (fun _ => rfl) (by simp)
  exact ⟨h.1, by simp, h.2.2.1, h.2.2.2.1, h.2.2.2.2.1, h.2.2.2.2.2.1,
    h.2.2.2.2.2.2⟩

/-! ### C4 -/

/-- The group rank the comparator assigns an entry: directories first. -/
def entryRank (e : DirEntry) : Nat := if e.isDir then 0 else 1

/-- The comparator is the strict lexicographic order on the pair of rank
and lowered name. -/
theorem entryLess_iff (a b : DirEntry) :
    entryLess a b = true ↔
      entryRank a < entryRank b ∨
        (entryRank a = entryRank b ∧ lowerName a.name < lowerName b.name) := by
  unfold entryLess entryRank
  cases ha : a.isDir <;> cases hb : b.isDir <;>
    simp [ha, hb, String.lt_iff_toList_lt, String.toList]

/-- Negated form of the comparator characterisation. -/
theorem entryLe_iff (a b : DirEntry) :
    entryLe a b ↔
      ¬ (entryRank b < entryRank a ∨
        (entryRank b = entryRank a ∧ lowerName b.name < lowerName a.name)) := by
  unfold entryLe
  rw [Bool.not_eq_true']
  constructor
  · intro h hcon
    exact absurd ((entryLess_iff b a).mpr hcon) (by simp [h])
  · intro h
    cases hba : entryLess b a
    · rfl
    · exact absurd ((entryLess_iff b a).mp hba) h

instance entryLeTrans : IsTrans DirEntry entryLe := by
  constructor
  intro a b c h1 h2
  rw [entryLe_iff] at *
  push_neg at *
  obtain ⟨h1a, h1b⟩ := h1
  obtain ⟨h2a, h2b⟩ := h2
  constructor
  · omega
  · intro hca
    have hba : entryRank b = entryRank a := by omega
    have hcb : entryRank c = entryRank b := by omega
    exact not_lt.mpr (le_trans (not_lt.mp (h1b hba)) (not_lt.mp (h2b hcb)))

instance entryLeTotal : IsTotal DirEntry entryLe := by
  constructor
  intro a b
  by_cases h : entryLe a b
  · exact Or.inl h
  · right
    rw [entryLe_iff] at h ⊢
    rw [not_not] at h
    intro hcon
    rcases h with h1 | ⟨h1, h2⟩ <;> rcases hcon with h4 | ⟨h4, h5⟩
    · omega
    · omega
    · omega
    · exact (lt_asymm h2) h5

/-- What a sorted pair satisfies, phrased as the spec phrases it. -/
theorem entryLe_spec (a b : DirEntry) (h : entryLe a b) :
    (b.isDir = true → a.isDir = true) ∧
    (a.isDir = b.isDir → lowerName a.name ≤ lowerName b.name) := by
  rw [entryLe_iff] at h
  push_neg at h
  obtain ⟨h1, h2⟩ := h
  constructor
  · intro hb
    cases hA : a.isDir
    · exfalso
      unfold entryRank at h1
      simp [hA, hb] at h1
    · rfl
  · intro heq
    have hr : entryRank b = entryRank a := by unfold entryRank; rw [heq]
    exact not_lt.mp (h2 hr)

/-- C4: the listing prepends the synthetic parent entry exactly when the
path's parent differs from the path, followed by all immediate entries as
a permutation of the directory content, ordered directories-first and
case-insensitively by name within each group; being a pure function of the
content, the listing is deterministic. -/
theorem C4_list_directory (dirOf : String → String)
    (join : String → String → String) (path : String)
    (entries : List DirEntry) :
    (dirOf path ≠ path →
      listDirectory dirOf join path entries =
        { name := "..", path := dirOf path, isDir := true, isParent := true } ::
        (entries.insertionSort entryLe).map (fun e =>
          { name := e.name, path := join path e.name, isDir := e.isDir,
            isParent := false })) ∧
    (dirOf path = path →
      listDirectory dirOf join path entries =
        (entries.insertionSort entryLe).map (fun e =>
          { name := e.name, path := join path e.name, isDir := e.isDir,
            isParent := false })) ∧
    (entries.insertionSort entryLe).Perm entries ∧
    (entries.insertionSort entryLe).Pairwise (fun a b =>
      (b.isDir = true → a.isDir = true) ∧
      (a.isDir = b.isDir → lowerName a.name ≤ lowerName b.name)) := by
  refine ⟨?_, ?_, List.perm_insertionSort entryLe entries, ?_⟩
  · intro h; simp [listDirectory, h]
  · intro h; simp [listDirectory, h]
  · exact (List.sorted_insertionSort entryLe entries).imp
      (fun h => entryLe_spec _ _ h)

/-- C4 witness: files b.wav, A.txt, a.mp3 under a non-root path list as the
parent entry, then a.mp3, A.txt, b.wav (case-insensitive file order). -/
theorem C4_list_directory_witness :
    listDirectory (fun _ => "/") (fun d n => d ++ "/" ++ n) "/music"
      [{ name := "b.wav", isDir := false }, { name := "A.txt", isDir := false },
       { name := "a.mp3", isDir := false }] =
      { name := "..", path := "/", isDir := true, isParent := true } ::
      (([{ name := "b.wav", isDir := false }, { name := "A.txt", isDir := false },
         { name := "a.mp3", isDir := false }] : List DirEntry).insertionSort
           entryLe).map (fun e =>
          { name := e.name, path := "/music" ++ "/" ++ e.name, isDir := e.isDir,
            isParent := false }) ∧
    listDirectory (fun _ => "/") (fun d n => d ++ "/" ++ n) "/music"
      [{ name := "b.wav", isDir := false }, { name := "A.txt", isDir := false },
       { name := "a.mp3", isDir := false }] =
      [{ name := "..", path := "/", isDir := true, isParent := true },
       { name := "a.mp3", path := "/music/a.mp3", isDir := false, isParent := false },
       { name := "A.txt", path := "/music/A.txt", isDir := false, isParent := false },
       { name := "b.wav", path := "/music/b.wav", isDir := false, isParent := false }] :=
  ⟨(C4_list_directory (fun _ => "/") (fun d n => d ++ "/" ++ n) "/music"
      [{ name := "b.wav", isDir := false }, { name := "A.txt", isDir := false },
       { name := "a.mp3", isDir := false }]).1 (by decide),
   by decide⟩

/-! ### C5 -/

/-- Membership in the key list of the selection map. -/
theorem contains_iff_mem (l : List String) (p : String) :
    l.contains p = true ↔ p ∈ l := by
  simp [List.contains]

/-- The allowed-extension test of toggleSelection on a plain file path. -/
def extAllowed (p : String) : Prop :=
  lowerName (goExt p) = ".mp3" ∨ lowerName (goExt p) = ".m4a" ∨
    lowerName (goExt p) = ".wav"

instance extAllowedDecidable (p : String) : Decidable (extAllowed p) := by
  unfold extAllowed; infer_instance

/-- A toggle of a path with a disallowed extension only sets the message. -/
theorem togglePath_not_allowed (m : Model) (p : String)
    (h : ¬ extAllowed p) :
    togglePath p m = { m with errorMsg := "仅支持选择 mp3、m4a、wav 文件" } := by
  unfold extAllowed at h
  simp [togglePath, toggleSelection, h]

/-- A toggle of a selected allowed path erases it from map and order. -/
theorem togglePath_remove (m : Model) (p : String)
    (hallow : extAllowed p) (hmem : m.selected.contains p = true) :
    togglePath p m = { m with selected := m.selected.erase p,
                              selectedOrder := m.selectedOrder.erase p } := by
  unfold extAllowed at hallow
  have hp : p ∈ m.selected := (contains_iff_mem _ _).mp hmem
  simp [togglePath, toggleSelection, hallow, hmem, hp]

/-- A toggle of an unselected allowed path appends it to map and order. -/
theorem togglePath_insert (m : Model) (p : String)
    (hallow : extAllowed p) (hmem : m.selected.contains p = false) :
    togglePath p m = { m with selected := m.selected ++ [p],
                              selectedOrder := m.selectedOrder ++ [p] } := by
  unfold extAllowed at hallow
  have hp : p ∉ m.selected := by
    intro hc
    have := (contains_iff_mem m.selected p).mpr hc
    rw [hmem] at this
    exact Bool.false_ne_true this
  simp [togglePath, toggleSelection, hallow, hmem, hp]

/-- The Selection Set well-formedness invariant of the spec: membership map
and order sequence are duplicate-free and hold the same paths. -/
def SelInv (m : Model) : Prop :=
  m.selected.Nodup ∧ m.selectedOrder.Nodup ∧
  ∀ q, q ∈ m.selected ↔ q ∈ m.selectedOrder

/-- A single toggle preserves the Selection Set invariant. -/
theorem togglePath_selinv (m : Model) (p : String) (h : SelInv m) :
    SelInv (togglePath p m) := by
  obtain ⟨h1, h2, h3⟩ := h
  by_cases hallow : extAllowed p
  · by_cases hmem : m.selected.contains p = true
    · rw [togglePath_remove m p hallow hmem]
      refine ⟨h1.erase p, h2.erase p, fun q => ?_⟩
      rw [h1.mem_erase_iff, h2.mem_erase_iff]
      exact and_congr_right (fun _ => h3 q)
    · have hmem' : m.selected.contains p = false := by
        simpa using hmem
      have hpsel : p ∉ m.selected := by
        intro hc
        have := (contains_iff_mem m.selected p).mpr hc
        rw [hmem'] at this
        exact Bool.false_ne_true this
      have hpord : p ∉ m.selectedOrder := fun hc => hpsel ((h3 p).mpr hc)
      rw [togglePath_insert m p hallow hmem']
      refine ⟨?_, ?_, fun q => ?_⟩
      · simp [List.nodup_append, h1, hpsel]
      · simp [List.nodup_append, h2, hpord]
      · simp only [List.mem_append, List.mem_singleton]
        exact or_congr_left (h3 q)
  · rw [togglePath_not_allowed m p hallow]
    exact ⟨h1, h2, h3⟩

/-- A double toggle restores membership of the selection map. -/
theorem togglePath_pair_mem (m : Model) (p : String) (h : SelInv m) :
    ∀ q, (q ∈ (togglePath p (togglePath p m)).selected ↔ q ∈ m.selected) := by
  obtain ⟨h1, h2, h3⟩ := h
  intro q
  by_cases hallow : extAllowed p
  · by_cases hmem : m.selected.contains p = true
    · have hpm : p ∈ m.selected := (contains_iff_mem _ _).mp hmem
      rw [togglePath_remove m p hallow hmem]
      have hpe : p ∉ m.selected.erase p := by
        intro hc
        exact absurd ((h1.mem_erase_iff).mp hc).1 (by simp)
      have hnc : (m.selected.erase p).contains p = false := by
        cases hcc : (m.selected.erase p).contains p
        · rfl
        · exact absurd ((contains_iff_mem _ _).mp hcc) hpe
      rw [togglePath_insert _ p hallow hnc]
      simp only [List.mem_append, List.mem_singleton]
      by_cases hq : q = p
      · subst hq; simp [hpm]
      · simp [hq, List.mem_erase_of_ne hq]
    · have hmem' : m.selected.contains p = false := by simpa using hmem
      rw [togglePath_insert m p hallow hmem']
      have hsel : (m.selected ++ [p]).contains p = true := by
        rw [contains_iff_mem]; simp
      rw [togglePath_remove _ p hallow hsel]
      have hpsel : p ∉ m.selected := by
        intro hc
        have := (contains_iff_mem m.selected p).mpr hc
        rw [hmem'] at this
        exact Bool.false_ne_true this
      simp [List.erase_append_right _ hpsel]
  · rw [togglePath_not_allowed m p hallow, togglePath_not_allowed _ p hallow]

/-- A double toggle of an unselected path restores map and order exactly. -/
theorem togglePath_pair_restore (m : Model) (p : String) (h : SelInv m)
    (hmem : m.selected.contains p = false) :
    (togglePath p (togglePath p m)).selected = m.selected ∧
    (togglePath p (togglePath p m)).selectedOrder = m.selectedOrder := by
  obtain ⟨h1, h2, h3⟩ := h
  have hpsel : p ∉ m.selected := by
    intro hc
    have := (contains_iff_mem m.selected p).mpr hc
    rw [hmem] at this
    exact Bool.false_ne_true this
  have hpord : p ∉ m.selectedOrder := fun hc => hpsel ((h3 p).mpr hc)
  by_cases hallow : extAllowed p
  · rw [togglePath_insert m p hallow hmem]
    have hsel : (m.selected ++ [p]).contains p = true := by
      rw [contains_iff_mem]; simp
    rw [togglePath_remove _ p hallow hsel]
    constructor
    · simp [List.erase_append_right _ hpsel]
    · simp [List.erase_append_right _ hpord]
  · rw [togglePath_not_allowed m p hallow, togglePath_not_allowed _ p hallow]
    exact ⟨rfl, rfl⟩

/-- Even-count toggling, by induction over pairs of toggles. -/
theorem toggle_even_aux (p : String) :
    ∀ (n : Nat) (m : Model), SelInv m →
      (∀ q, q ∈ ((togglePath p)^[2 * n] m).selected ↔ q ∈ m.selected) ∧
      (m.selected.contains p = false →
        ((togglePath p)^[2 * n] m).selected = m.selected ∧
        ((togglePath p)^[2 * n] m).selectedOrder = m.selectedOrder) := by
  intro n
  induction n with
  | zero => intro m _; simp
  | succ k ih =>
    intro m hm
    have hrw : (togglePath p)^[2 * (k + 1)] m =
        (togglePath p)^[2 * k] (togglePath p (togglePath p m)) := by
      have : 2 * (k + 1) = 2 * k + 2 := by ring
      rw [this, Function.iterate_add_apply]
      rfl
    have hm2 : SelInv (togglePath p (togglePath p m)) :=
      togglePath_selinv _ p (togglePath_selinv m p hm)
    obtain ⟨ihmem, ihres⟩ := ih (togglePath p (togglePath p m)) hm2
    constructor
    · intro q
      rw [hrw, ihmem q]
      exact togglePath_pair_mem m p hm q
    · intro hmem
      obtain ⟨hs, ho⟩ := togglePath_pair_restore m p hm hmem
      have hmem2 : (togglePath p (togglePath p m)).selected.contains p = false := by
        rw [hs]; exact hmem
      obtain ⟨hs2, ho2⟩ := ihres hmem2
      rw [hrw]
      exact ⟨hs2.trans hs, ho2.trans ho⟩

/-- C5 (amended): over a well-formed Selection Set, an even number of
toggles of one path always restores the membership; it also restores the
order sequence whenever the path was not selected beforehand.  When the
path was already selected and was not the most recent entry, the pair of
toggles moves it to the end of the order, so the original claim fails on
the order part (see the counterexample). -/
theorem C5_even_toggle (m : Model) (p : String) (n : Nat)
    (h1 : m.selected.Nodup) (h2 : m.selectedOrder.Nodup)
    (h3 : ∀ q, q ∈ m.selected ↔ q ∈ m.selectedOrder) :
    (∀ q, q ∈ ((togglePath p)^[2 * n] m).selected ↔ q ∈ m.selected) ∧
    (m.selected.contains p = false →
      ((togglePath p)^[2 * n] m).selected = m.selected ∧
      ((togglePath p)^[2 * n] m).selectedOrder = m.selectedOrder) :=
  toggle_even_aux p n m ⟨h1, h2, h3⟩

/-- A well-formed three-file selection used by the C5 counterexample. -/
def selThreeModel : Model :=
  { baseModel with selected := ["a.mp3", "p.mp3", "b.mp3"],
                   selectedOrder := ["a.mp3", "p.mp3", "b.mp3"] }

/-- C5 counterexample: in a well-formed state whose order is a.mp3, p.mp3,
b.mp3, toggling p.mp3 twice (an even count) leaves the order a.mp3, b.mp3,
p.mp3: membership is restored but the pre-sequence order is not. -/
theorem C5_counterexample :
    (togglePath "p.mp3" (togglePath "p.mp3" selThreeModel)).selectedOrder =
      ["a.mp3", "b.mp3", "p.mp3"] ∧
    selThreeModel.selectedOrder = ["a.mp3", "p.mp3", "b.mp3"] ∧
    (togglePath "p.mp3" (togglePath "p.mp3" selThreeModel)).selectedOrder ≠
      selThreeModel.selectedOrder ∧
    selThreeModel.selected.Nodup ∧ selThreeModel.selectedOrder.Nodup ∧
    selThreeModel.selected = selThreeModel.selectedOrder := by
  decide

/-- A well-formed singleton selection used by the C5 witness. -/
def singleSelModel : Model :=
  { baseModel with selected := ["a.mp3"], selectedOrder := ["a.mp3"] }

/-- C5 witness: a singleton selection of a.mp3 with p = b.mp3 unselected:
two toggles restore both membership and order. -/
theorem C5_even_toggle_witness :
    (∀ q, q ∈ ((togglePath "b.mp3")^[2 * 1] singleSelModel).selected ↔
      q ∈ singleSelModel.selected) ∧
    (singleSelModel.selected.contains "b.mp3" = false →
      ((togglePath "b.mp3")^[2 * 1] singleSelModel).selected =
        singleSelModel.selected ∧
      ((togglePath "b.mp3")^[2 * 1] singleSelModel).selectedOrder =
        singleSelModel.selectedOrder) :=
  C5_even_toggle singleSelModel "b.mp3" 1 (by decide) (by decide)
    (fun _ => Iff.rfl)

/-! ### C6 -/

/-- C6 (amended): with incomplete stored credentials the application starts
in Config, but pressing cancel (esc) in Config with still-incomplete
credentials emits the quit command — the application terminates rather
than staying in Config; cancel reaches Browser only once the credentials
are complete. -/
theorem C6_config_cancel (cfg : Config) (root home dls : String) (m : Model)
    (mc : Model)
    (hinc : cfg.IsComplete = false) (hm : m.cfg.IsComplete = false)
    (hc : mc.cfg.IsComplete = true) :
    (newModel cfg root home dls).state = AppState.config ∧
    updateConfig m "esc" = (m, Cmd.quit) ∧
    (updateConfig mc "esc").1.state = AppState.browser ∧
    (updateConfig mc "esc").2 = Cmd.loadDirectory (currentDirOrRoot mc) := by
  refine ⟨by simp [newModel, hinc], ?_, ?_, ?_⟩
  · simp [updateConfig, hm]
  · simp [updateConfig, hc]
  · simp [updateConfig, hc]

/-- C6 witness: the empty-credential model starts in Config and esc quits
it; the complete-credential model returns to Browser on esc. -/
theorem C6_config_cancel_witness :
    (newModel { MinimaxSecret := "", MinimaxGroup := "" } "/root" "/home"
      "/dl").state = AppState.config ∧
    updateConfig emptyCfgModel "esc" = (emptyCfgModel, Cmd.quit) ∧
    (updateConfig baseModel "esc").1.state = AppState.browser ∧
    (updateConfig baseModel "esc").2 =
      Cmd.loadDirectory (currentDirOrRoot baseModel) :=
  C6_config_cancel { MinimaxSecret := "", MinimaxGroup := "" } "/root" "/home"
    "/dl" emptyCfgModel baseModel (by decide) (by decide) (by decide)

/-- C6 counterexample: at startup with empty credentials the state is
Config, and pressing the cancel key emits the quit command, so cancelling
is not blocked: the process terminates instead of remaining in Config. -/
theorem C6_counterexample :
    emptyCfgModel.state = AppState.config ∧
    emptyCfgModel.cfg.IsComplete = false ∧
    (updateConfig emptyCfgModel "esc").2 = Cmd.quit := by
  decide

/-! ### C7 -/

/-- C7 (amended): toggling a directory entry is a silent no-op (the model,
message fields included, is unchanged); toggling a file with a disallowed
extension, confirming a clone with an empty selection, and exporting with
an empty result list each surface a transient message while leaving the
state, the Selection Set membership and order, and the result list
unchanged. -/
theorem C7_rejected_inputs (m : Model) (item : FileItem)
    (dirOf : String → String) (stat : String → Option Bool)
    (mf : Model) (itemf : FileItem) (mc : Model) (me : Model)
    (hdir : item.isDir = true)
    (hf : itemf.isDir = false) (hext : ¬ extAllowed itemf.path)
    (hcsel : mc.selected = []) (here : me.results = []) :
    toggleSelection m item = m ∧
    toggleSelection mf itemf =
      { mf with errorMsg := "仅支持选择 mp3、m4a、wav 文件" } ∧
    ((toggleSelection mf itemf).state = mf.state ∧
     (toggleSelection mf itemf).selected = mf.selected ∧
     (toggleSelection mf itemf).selectedOrder = mf.selectedOrder ∧
     (toggleSelection mf itemf).results = mf.results ∧
     (toggleSelection mf itemf).errorMsg ≠ "") ∧
    updateBrowserKeys dirOf stat mc "c" =
      ({ mc with errorMsg := "请先勾选至少一个文件" }, Cmd.noop) ∧
    updateBrowserKeys dirOf stat me "e" =
      ({ me with errorMsg := "暂无可导出的克隆记录" }, Cmd.noop) := by
  unfold extAllowed at hext
  have h2 : toggleSelection mf itemf =
      { mf with errorMsg := "仅支持选择 mp3、m4a、wav 文件" } := by
    simp [toggleSelection, hf, hext]
  refine ⟨by simp [toggleSelection, hdir], h2, ?_, ?_, ?_⟩
  · rw [h2]
    refine ⟨rfl, rfl, rfl, rfl, ?_⟩
    show ("仅支持选择 mp3、m4a、wav 文件" : String) ≠ ""
    decide
  · simp [updateBrowserKeys, hcsel]
  · simp [updateBrowserKeys, here]

/-- C7 witness: a directory entry toggle is silent, a txt file toggle only
sets the message, and clone/export on the empty base model only set their
messages. -/
theorem C7_rejected_inputs_witness :
    toggleSelection baseModel
      { name := "music", path := "/root/music", isDir := true,
        isParent := false } = baseModel ∧
    toggleSelection baseModel
      { name := "x.txt", path := "/root/x.txt", isDir := false,
        isParent := false } =
      { baseModel with errorMsg := "仅支持选择 mp3、m4a、wav 文件" } ∧
    ((toggleSelection baseModel
      { name := "x.txt", path := "/root/x.txt", isDir := false,
        isParent := false }).state = baseModel.state ∧
     (toggleSelection baseModel
      { name := "x.txt", path := "/root/x.txt", isDir := false,
        isParent := false }).selected = baseModel.selected ∧
     (toggleSelection baseModel
      { name := "x.txt", path := "/root/x.txt", isDir := false,
        isParent := false }).selectedOrder = baseModel.selectedOrder ∧
     (toggleSelection baseModel
      { name := "x.txt", path := "/root/x.txt", isDir := false,
        isParent := false }).results = baseModel.results ∧
     (toggleSelection baseModel
      { name := "x.txt", path := "/root/x.txt", isDir := false,
        isParent := false }).errorMsg ≠ "") ∧
    updateBrowserKeys (fun s => s) (fun _ => none) baseModel "c" =
      ({ baseModel with errorMsg := "请先勾选至少一个文件" }, Cmd.noop) ∧
    updateBrowserKeys (fun s => s) (fun _ => none) baseModel "e" =
      ({ baseModel with errorMsg := "暂无可导出的克隆记录" }, Cmd.noop) :=
  C7_rejected_inputs baseModel
    { name := "music", path := "/root/music", isDir := true, isParent := false }
    (fun s => s) (fun _ => none) baseModel
    { name := "x.txt", path := "/root/x.txt", isDir := false, isParent := false }
    baseModel baseModel rfl rfl (by decide) rfl rfl

/-- C7 counterexample: toggling a directory entry leaves the model exactly
unchanged, message fields included: no transient message is surfaced,
contrary to the claim that every rejected input surfaces one. -/
theorem C7_counterexample :
    toggleSelection baseModel
      { name := "music", path := "/root/music", isDir := true,
        isParent := false } = baseModel ∧
    baseModel.errorMsg = "" ∧
    (toggleSelection baseModel
      { name := "music", path := "/root/music", isDir := true,
        isParent := false }).errorMsg = "" := by
  decide

/-! ### C1 and C2: the dispatch loop invariant -/

/-- Every job message carries exactly one record, for its own path. -/
theorem jobMsg_record (env : RemoteEnv) (now : Nat) (p : String) :
    (jobMsg env now p).Record = some (jobRecord env now p) ∧
    (jobRecord env now p).FilePath = p := by
  cases h1 : GenerateVoiceID env.readFile p with
  | error e => simp [jobMsg, jobRecord, cloneFileCmd, h1]
  | ok vid =>
    cases h2 : env.upload p with
    | error e => simp [jobMsg, jobRecord, cloneFileCmd, h1, h2]
    | ok fid =>
      cases h3 : env.clone fid vid with
      | error e => simp [jobMsg, jobRecord, cloneFileCmd, h1, h2, h3]
      | ok s => simp [jobMsg, jobRecord, cloneFileCmd, h1, h2, h3]

/-- What absorbing a step message does to the run bookkeeping. -/
theorem absorbCloneStep_spec (m : Model) (msg : CloneStepMsg) (r : Record)
    (hr : msg.Record = some r) :
    absorbCloneStep m msg =
      { m with
          logs := m.logs ++ stepLogLines msg,
          results := m.results ++ [r],
          cloneSuccess := m.cloneSuccess + (if msg.Err.isSome then 0 else 1),
          cloneFailed := m.cloneFailed + (if msg.Err.isSome then 1 else 0) } := by
  unfold absorbCloneStep
  rw [hr]
  cases he : msg.Err.isSome <;> simp [he]

/-- The dispatch loop invariant: from any model with rest jobs left in the
frozen queue, the run processes exactly those jobs in order, appending one
record and one counter increment per job, and ends by dispatching the
single aggregate completion signal carrying the final counters. -/
theorem runClone_go (env : RemoteEnv) (now : Nat) :
    ∀ (rest : List String) (m : Model),
      m.cloneQueue.drop m.cloneIndex = rest →
      m.cloneIndex + rest.length = m.cloneQueue.length →
      runClone env now (rest.length + 1) m =
        ({ m with
            cloneIndex := m.cloneQueue.length,
            logs := m.logs ++
              rest.flatMap (fun p => stepLogLines (jobMsg env now p)),
            results := m.results ++ rest.map (jobRecord env now),
            cloneSuccess := m.cloneSuccess +
              rest.countP (fun p => !jobFails env now p),
            cloneFailed := m.cloneFailed +
              rest.countP (fun p => jobFails env now p) },
         rest.map (fun p => Dispatched.step (jobMsg env now p)) ++
           [Dispatched.finished
             (m.cloneSuccess + rest.countP (fun p => !jobFails env now p))
             (m.cloneFailed + rest.countP (fun p => jobFails env now p))]) := by
  intro rest
  induction rest with
  | nil =>
    intro m hdrop hlen
    simp only [List.length_nil, Nat.add_zero] at hlen
    have hcond : m.cloneQueue.length ≤ m.cloneIndex := by omega
    simp [runClone, nextCloneCmd, hcond, hlen]
    rw [← hlen]
  | cons p rest' ih =>
    intro m hdrop hlen
    simp only [List.length_cons] at hlen
    have hlt : m.cloneIndex < m.cloneQueue.length := by omega
    have hcond : ¬ m.cloneQueue.length ≤ m.cloneIndex := by omega
    have hcons := List.drop_eq_getElem_cons (l := m.cloneQueue)
      (n := m.cloneIndex) hlt
    rw [hdrop] at hcons
    simp only [List.cons.injEq] at hcons
    obtain ⟨hget, hdrop'⟩ := hcons
    have hgetD : m.cloneQueue.getD m.cloneIndex "" = p := by
      simp [List.getD_eq_getElem?_getD, List.getElem?_eq_getElem hlt, ← hget]
    have hrec := (jobMsg_record env now p).1
    show runClone env now (rest'.length + 1 + 1) m = _
    rw [runClone]
    simp only [nextCloneCmd, if_neg hcond, hgetD]
    rw [absorbCloneStep_spec _ _ _ hrec]
    rw [ih _ (by simpa using hdrop'.symm) (by simpa using (by omega : m.cloneIndex + 1 + rest'.length = m.cloneQueue.length))]
    cases hf : jobFails env now p with
    | false =>
      have hf' : (jobMsg env now p).Err.isSome = false := hf
      simp [hf', hf, List.countP_cons, List.flatMap_cons, List.append_assoc]
      all_goals omega
    | true =>
      have hf' : (jobMsg env now p).Err.isSome = true := hf
      simp [hf', hf, List.countP_cons, List.flatMap_cons, List.append_assoc]
      all_goals omega

/-- Counting failing and non-failing paths exhausts a queue. -/
theorem countP_not_add (q : String → Bool) (l : List String) :
    l.countP q + l.countP (fun x => !q x) = l.length := by
  induction l with
  | nil => simp
  | cons a t ih =>
    cases hq : q a <;> simp [List.countP_cons, hq] <;> omega

/-- C1: over the queue frozen from the selection at Confirm-accept, the
run appends exactly one ResultRecord per job in queue order (N records for
N jobs), every absorbed completion increments exactly one of the two
counters, and at completion succeeded + failed = N and succeeded = N - K
for K the number of failing jobs. -/
theorem C1_pipeline_run (env : RemoteEnv) (now : Nat) (m0 : Model) :
    (runClone env now ((selectedFiles m0).length + 1) (startClone m0)).1.results =
      (selectedFiles m0).map (jobRecord env now) ∧
    ((runClone env now ((selectedFiles m0).length + 1) (startClone m0)).1.results).map
        Record.FilePath = selectedFiles m0 ∧
    (runClone env now ((selectedFiles m0).length + 1)
        (startClone m0)).1.results.length = (selectedFiles m0).length ∧
    (runClone env now ((selectedFiles m0).length + 1) (startClone m0)).1.cloneSuccess +
      (runClone env now ((selectedFiles m0).length + 1) (startClone m0)).1.cloneFailed =
      (selectedFiles m0).length ∧
    (runClone env now ((selectedFiles m0).length + 1) (startClone m0)).1.cloneFailed =
      ((selectedFiles m0).filter (fun p => jobFails env now p)).length ∧
    (runClone env now ((selectedFiles m0).length + 1) (startClone m0)).1.cloneSuccess =
      (selectedFiles m0).length -
        ((selectedFiles m0).filter (fun p => jobFails env now p)).length ∧
    (∀ p, (jobMsg env now p).Record = some (jobRecord env now p)) ∧
    (∀ mm msg, (absorbCloneStep mm msg).cloneSuccess +
        (absorbCloneStep mm msg).cloneFailed =
        mm.cloneSuccess + mm.cloneFailed + 1) ∧
    (∀ mm msg r, msg.Record = some r →
      (absorbCloneStep mm msg).results = mm.results ++ [r]) := by
  have hrun := runClone_go env now (selectedFiles m0) (startClone m0)
    (by simp [startClone]) (by simp [startClone])
  have hcnt := countP_not_add (fun p => jobFails env now p) (selectedFiles m0)
  rw [hrun]
  refine ⟨by simp [startClone], ?_, by simp [startClone], ?_, ?_, ?_, ?_, ?_, ?_⟩
  · simp only [startClone, List.nil_append, List.map_map]
    exact (List.map_congr_left
      (fun p _ => (jobMsg_record env now p).2)).trans (List.map_id _)
  · simp only [startClone]
    omega
  · simp [startClone, List.countP_eq_length_filter]
  · simp only [startClone, List.countP_eq_length_filter] at hcnt ⊢
    omega
  · exact fun p => (jobMsg_record env now p).1
  · intro mm msg
    unfold absorbCloneStep
    cases hr : msg.Record <;> cases he : msg.Err.isSome <;> simp [hr, he] <;> omega
  · intro mm msg r hr
    unfold absorbCloneStep
    rw [hr]
    cases he : msg.Err.isSome <;> simp [he]

/-- A remote environment in which hashing, upload and clone all succeed. -/
def okRemoteEnv : RemoteEnv :=
  { readFile := fun _ => Except.ok [97], upload := fun _ => Except.ok 7,
    clone := fun _ _ => Except.ok "ok" }

/-- C1 witness: running the frozen singleton queue a.mp3 under an
all-success environment gives one record in queue order and counters
summing to the queue length. -/
theorem C1_pipeline_run_witness :
    (runClone okRemoteEnv 0 ((selectedFiles singleSelModel).length + 1)
        (startClone singleSelModel)).1.cloneSuccess +
      (runClone okRemoteEnv 0 ((selectedFiles singleSelModel).length + 1)
        (startClone singleSelModel)).1.cloneFailed =
      (selectedFiles singleSelModel).length ∧
    ((runClone okRemoteEnv 0 ((selectedFiles singleSelModel).length + 1)
        (startClone singleSelModel)).1.results).map Record.FilePath =
      selectedFiles singleSelModel :=
  ⟨(C1_pipeline_run okRemoteEnv 0 singleSelModel).2.2.2.1,
   (C1_pipeline_run okRemoteEnv 0 singleSelModel).2.1⟩

/-- C2: the run dispatches exactly one aggregate completion signal, last,
carrying the final counters; handleCloneFinished transitions to Summary
whatever the counts and the automatic export outcome, flagging an export
failure in the status line (and recording the exported path on success);
a manual export completion returns to Browser, with an error message on
failure and the exported path in the status line on success. -/
theorem C2_completion_export (env : RemoteEnv) (now : Nat) (m0 : Model)
    (eenv : ExportEnv) (m : Model) (msg : CloneFinishedMsg)
    (mm : Model) (emsg : ExportResultMsg) :
    (runClone env now ((selectedFiles m0).length + 1) (startClone m0)).2.countP
        Dispatched.isFinished = 1 ∧
    (runClone env now ((selectedFiles m0).length + 1) (startClone m0)).2.getLast? =
      some (Dispatched.finished
        (runClone env now ((selectedFiles m0).length + 1)
          (startClone m0)).1.cloneSuccess
        (runClone env now ((selectedFiles m0).length + 1)
          (startClone m0)).1.cloneFailed) ∧
    (handleCloneFinished eenv m msg).state = AppState.summary ∧
    (∀ e, (ToCSV eenv m.results m.downloadsDir).1 = Except.error e →
      (handleCloneFinished eenv m msg).statusMsg =
        "克隆完成：成功 " ++ toString msg.Success ++ " · 失败 " ++
          toString msg.Failed ++ " · 导出失败（按 q 返回）" ∧
      (handleCloneFinished eenv m msg).lastExportPath = "") ∧
    (∀ pr, (ToCSV eenv m.results m.downloadsDir).1 = Except.ok pr →
      (handleCloneFinished eenv m msg).lastExportPath = pr.1 ∧
      (handleCloneFinished eenv m msg).statusMsg =
        "克隆完成：成功 " ++ toString msg.Success ++ " · 失败 " ++
          toString msg.Failed ++ " · CSV：" ++ pr.1 ++ " (按 q 返回)") ∧
    (handleExportResult mm emsg).1.state = AppState.browser ∧
    (∀ e, emsg.Err = some e →
      (handleExportResult mm emsg).1.errorMsg = "导出失败：" ++ e) ∧
    (emsg.Err = none →
      (handleExportResult mm emsg).1.statusMsg = "导出成功：" ++ emsg.Path) := by
  have hrun := runClone_go env now (selectedFiles m0) (startClone m0)
    (by simp [startClone]) (by simp [startClone])
  refine ⟨?_, ?_, ?_, ?_, ?_, ?_, ?_, ?_⟩
  · rw [hrun]
    simp [List.countP_append, List.countP_map, Dispatched.isFinished,
      Function.comp]
  · rw [hrun]
    simp [List.getLast?_concat]
  · cases hres : (ToCSV eenv m.results m.downloadsDir).1 <;>
      simp [handleCloneFinished, hres]
  · intro e he
    simp [handleCloneFinished, he]
  · intro pr hok
    simp [handleCloneFinished, hok]
  · cases he : emsg.Err <;> simp [handleExportResult, he]
  · intro e he
    simp [handleExportResult, he]
  · intro he
    simp [handleExportResult, he]

/-- C2 witness: the singleton run dispatches exactly one completion signal;
a finished run over the base model reaches Summary; a manual export
success returns to Browser with the exported path in the status line. -/
theorem C2_completion_export_witness :
    (runClone okRemoteEnv 0 ((selectedFiles singleSelModel).length + 1)
        (startClone singleSelModel)).2.countP Dispatched.isFinished = 1 ∧
    (handleCloneFinished okExportEnv baseModel
        { Success := 1, Failed := 0 }).state = AppState.summary ∧
    (handleExportResult baseModel
        { Path := "/dl/x.csv", Err := none }).1.state = AppState.browser ∧
    (handleExportResult baseModel
        { Path := "/dl/x.csv", Err := none }).1.statusMsg =
      "导出成功：" ++ "/dl/x.csv" := by
  have h := C2_completion_export okRemoteEnv 0 singleSelModel okExportEnv
    baseModel { Success := 1, Failed := 0 } baseModel
    { Path := "/dl/x.csv", Err := none }
  exact ⟨h.1, h.2.2.1, h.2.2.2.2.2.1, h.2.2.2.2.2.2.2 rfl⟩

end VoiceClone
